import Mathlib

/-!
Verification of the mip-NeRF forward pipeline (`src/models/mip_nerf.py`).

The file shallowly embeds the two classes of the source file:

* `MLP` (lines 14-111): a value-level embedding over `ℚ` of the layer stack,
  the skip reinjection, the density head and the view-conditioned color head,
  together with the construction-time layer shapes and the
  `NotImplementedError` behaviour of `MLP.__init__`.
* `MipNerf` (lines 114-248): the constructor checks of `MipNerf.__init__`
  and the per-level orchestration of `MipNerf.forward`.  The routines
  imported from `models.mip` (`sample_along_rays`, `resample_along_rays`,
  `volumetric_rendering`) and the learned MLP weights are opaque to the
  orchestrator, so they are parameters of the embedding
  (`MipComponents`); the positional encoders, whose numeric behaviour two
  claims depend on, are modelled from the spec (see their doc comments).
  `torch.randn` draws from torch's global generator; the embedding makes
  that ambient generator explicit as a state value of an abstract type `S`
  threaded through the call, exactly as a sequence of calls inside one
  process would thread the global generator.

Machine floats are modelled as exact rationals (configuration scalars) and
real numbers (tensor contents); float rounding itself is out of scope.
-/

namespace MipNerfPL

/-! ## The MLP (source lines 14-111) -/

/-- Elementwise ReLU, `torch.nn.ReLU`. -/
def relu (x : ℚ) : ℚ := max x 0

/-- A `torch.nn.Linear` layer: a weight matrix (rows = output features) and a
bias vector.  The Xavier initialisation of the source only chooses the
numeric values, which are opaque learned state here. -/
structure Linear where
  weight : List (List ℚ)
  bias : List ℚ

/-- `torch.nn.Linear` application `W x + b`, one dot product per output row. -/
def Linear.apply (l : Linear) (x : List ℚ) : List ℚ :=
  List.zipWith (fun row b => (List.zipWith (fun a c => a * c) row x).sum + b) l.weight l.bias

/-- Input width of layer `i` of the first MLP stack, from `MLP.__init__`
(source lines 35-44): layer 0 reads the encoded input, the layer after each
skip layer reads `net_width + xyz_dim`, all others read `net_width`.  This
total version is meaningful only for `skip_index ≠ 0`: Python's
`(i - 1) % skip_index` raises `ZeroDivisionError` when `skip_index = 0`,
which the fallible variant `layerDimInE` below models; the two agree
whenever `skip_index ≠ 0`. -/
def layerDimIn (net_width xyz_dim skip_index i : ℕ) : ℕ :=
  if i = 0 then xyz_dim
  else if (i - 1) % skip_index = 0 ∧ 1 < i then net_width + xyz_dim
  else net_width

/-- Learned parameters of the MLP, mirroring the module fields created in
`MLP.__init__` (source lines 33-73). -/
structure MLPParams where
  skip_index : ℕ
  layers : List Linear
  density_layer : Linear
  extra_layer : Linear
  view_layers : List Linear
  color_layer : Linear

/-- The first stack of `MLP.forward` (source lines 94-97), instrumented with
the width of the tensor entering each layer: each layer applies
linear-then-ReLU, and after every `skip_index`-th layer (other than layer 0)
the original encoded input is concatenated back onto the running tensor.
Returns the final hidden state together with the list of entering widths. -/
def runLayersT (skip_index : ℕ) (inputs : List ℚ) :
    List Linear → ℕ → List ℚ → List ℚ × List ℕ
  | [], _, x => (x, [])
  | l :: ls, i, x =>
    let x' := (l.apply x).map relu
    let x'' := if i % skip_index = 0 ∧ 0 < i then x' ++ inputs else x'
    let rest := runLayersT skip_index inputs ls (i + 1) x''
    (rest.1, x.length :: rest.2)

/-- The first stack of `MLP.forward`, forgetting the width instrumentation. -/
def runLayers (skip_index : ℕ) (inputs : List ℚ) (ls : List Linear) (i : ℕ)
    (x : List ℚ) : List ℚ :=
  (runLayersT skip_index inputs ls i x).1

/-- `MLP.forward` (source lines 75-111) for one ray: `x` is the list of
per-sample encoded position features, `view_direction` the optional encoded
view direction shared by all samples of the ray (the source broadcasts it
across the sample dimension).  Returns `(raw_rgb, raw_density)`.  The raw
density is read off the first stack's final hidden state before any view
conditioning happens. -/
def MLP.forward (p : MLPParams) (x : List (List ℚ))
    (view_direction : Option (List ℚ)) : List (List ℚ) × List (List ℚ) :=
  let h := x.map (fun xi => runLayers p.skip_index xi p.layers 0 xi)
  let raw_density := h.map p.density_layer.apply
  let h2 :=
    match view_direction with
    | none => h
    | some vd =>
      h.map (fun hi =>
        let bottleneck := p.extra_layer.apply hi
        p.view_layers.foldl (fun a l => (Linear.apply l a).map relu) (bottleneck ++ vd))
  let raw_rgb := h2.map p.color_layer.apply
  (raw_rgb, raw_density)

/-- The errors the constructors of the source raise: `NotImplementedError`
for an unsupported activation selection, and `ZeroDivisionError` from the
`(i - 1) % skip_index` width computation when `skip_index = 0`. -/
inductive InitErr : Type where
  | notImplemented : InitErr
  | zeroDivision : InitErr
deriving DecidableEq

/-- The input-width computation of `MLP.__init__` lines 36-44 as Python
executes it: for `i ≥ 1` the branch condition evaluates
`(i - 1) % skip_index` before the short-circuit `and i > 1`, raising
`ZeroDivisionError` when `skip_index = 0`. -/
def layerDimInE (net_width xyz_dim skip_index i : ℕ) : Except InitErr ℕ :=
  if i = 0 then .ok xyz_dim
  else if skip_index = 0 then .error .zeroDivision
  else if (i - 1) % skip_index = 0 ∧ 1 < i then .ok (net_width + xyz_dim)
  else .ok net_width

/-- The first layer-building loop of `MLP.__init__` (source lines 35-50),
iterated over the layer indices: iteration `i` first computes the input
width (lines 36-44, which can raise `ZeroDivisionError`), then appends the
linear-plus-activation block, raising `NotImplementedError` unless the
configured activation is `"relu"`. -/
def buildFirstStack (net_width xyz_dim skip_index : ℕ) (activation : String) :
    List ℕ → Except InitErr (List (ℕ × ℕ))
  | [] => .ok []
  | i :: is =>
    match layerDimInE net_width xyz_dim skip_index i with
    | .error e => .error e
    | .ok d =>
      if activation = "relu" then
        match buildFirstStack net_width xyz_dim skip_index activation is with
        | .ok rest => .ok ((d, net_width) :: rest)
        | .error e => .error e
      else .error .notImplemented

/-- The second (view-conditioned) layer-building loop of `MLP.__init__`
(source lines 58-70): each iteration appends a linear-plus-activation
block, raising `NotImplementedError` as soon as the configured activation
is not `"relu"`.  The input is the list of `(dim_in, dim_out)` shapes of
the blocks; no modulo is computed here. -/
def buildReluStack (activation : String) : List (ℕ × ℕ) → Except InitErr (List (ℕ × ℕ))
  | [] => .ok []
  | d :: ds =>
    if activation = "relu" then
      match buildReluStack activation ds with
      | .ok rest => .ok (d :: rest)
      | .error e => .error e
    else .error .notImplemented

/-- The shapes of all learned tensors created by `MLP.__init__`. -/
structure MLPShape where
  layerDims : List (ℕ × ℕ)
  density_dims : ℕ × ℕ
  extra_dims : ℕ × ℕ
  viewDims : List (ℕ × ℕ)
  color_dims : ℕ × ℕ
deriving DecidableEq

/-- `MLP.__init__` (source lines 19-73) at the level of shapes: builds the
first stack with the skip-aware input widths (raising `ZeroDivisionError`
when `skip_index = 0` is consulted at a layer index `i ≥ 1`), the density
head `net_width → num_density_channels`, the extra (bottleneck) layer, the
view-conditioned stack whose first block reads `net_width + view_dim`, and
the color head.  Raises for any hidden activation other than `"relu"`. -/
def MLP.initShape (net_depth net_width net_depth_condition net_width_condition
    skip_index num_rgb_channels num_density_channels : ℕ) (activation : String)
    (xyz_dim view_dim : ℕ) : Except InitErr MLPShape :=
  match buildFirstStack net_width xyz_dim skip_index activation
      (List.range net_depth) with
  | .error e => .error e
  | .ok ld =>
    match buildReluStack activation
        ((List.range net_depth_condition).map
          (fun i => (if i = 0 then net_width + view_dim else net_width_condition,
                     net_width_condition))) with
    | .error e => .error e
    | .ok vd =>
      .ok { layerDims := ld
            density_dims := (net_width, num_density_channels)
            extra_dims := (net_width, net_width)
            viewDims := vd
            color_dims := (net_width_condition, num_rgb_channels) }

/-! ## MipNerf configuration and constructor (source lines 114-170) -/

/-- The keyword arguments of `MipNerf.__init__` (source lines 117-141).
Float-valued arguments are modelled as exact rationals. -/
structure MipConfig where
  num_samples : ℕ
  num_levels : ℕ
  resample_padding : ℚ
  stop_resample_grad : Bool
  use_viewdirs : Bool
  disparity : Bool
  ray_shape : String
  min_deg_point : ℕ
  max_deg_point : ℕ
  deg_view : ℕ
  density_activation : String
  density_noise : ℚ
  density_bias : ℚ
  rgb_activation : String
  rgb_padding : ℚ
  disable_integration : Bool
  append_identity : Bool
  mlp_net_depth : ℕ
  mlp_net_width : ℕ
  mlp_net_depth_condition : ℕ
  mlp_net_width_condition : ℕ
  mlp_skip_index : ℕ
  mlp_num_rgb_channels : ℕ
  mlp_num_density_channels : ℕ
  mlp_net_activation : String

/-- The default argument values of `MipNerf.__init__`. -/
def defaultConfig : MipConfig :=
  { num_samples := 128
    num_levels := 2
    resample_padding := 1/100
    stop_resample_grad := true
    use_viewdirs := true
    disparity := false
    ray_shape := "cone"
    min_deg_point := 0
    max_deg_point := 16
    deg_view := 4
    density_activation := "softplus"
    density_noise := 0
    density_bias := -1
    rgb_activation := "sigmoid"
    rgb_padding := 1/1000
    disable_integration := false
    append_identity := true
    mlp_net_depth := 8
    mlp_net_width := 256
    mlp_net_depth_condition := 1
    mlp_net_width_condition := 128
    mlp_skip_index := 4
    mlp_num_rgb_channels := 3
    mlp_num_density_channels := 1
    mlp_net_activation := "relu" }

/-- `torch.nn.Sigmoid`: `1 / (1 + exp (-x))`. -/
noncomputable def sigmoid (x : ℝ) : ℝ := 1 / (1 + Real.exp (-x))

/-- `torch.nn.Softplus` (default `beta = 1`): `log (1 + exp x)`. -/
noncomputable def softplus (x : ℝ) : ℝ := Real.log (1 + Real.exp x)

/-- The state a constructed `MipNerf` module carries: the configuration
fields stored in `__init__` (source lines 143-155), the activation functions
selected at lines 162-170, and the shapes of the constructed MLP
(`mlp_view_dim` is the view-encoding width the MLP's conditioning stack was
built for, from lines 156-158). -/
structure MipModel where
  num_levels : ℕ
  num_samples : ℕ
  disparity : Bool
  ray_shape : String
  disable_integration : Bool
  min_deg_point : ℕ
  max_deg_point : ℕ
  use_viewdirs : Bool
  deg_view : ℕ
  density_noise : ℚ
  density_bias : ℚ
  resample_padding : ℚ
  rgb_padding : ℚ
  stop_resample_grad : Bool
  rgb_activation : ℝ → ℝ
  density_activation : ℝ → ℝ
  mlp_shape : MLPShape
  mlp_view_dim : ℕ
  mlp_xyz_dim : ℕ

/-- `MipNerf.__init__` (source lines 142-170).  The MLP is constructed first
(raising for a hidden activation other than `"relu"` when a stack is
nonempty), then `rgb_activation` must be `"sigmoid"` and
`density_activation` must be `"softplus"`; each failure raises
`NotImplementedError`.  No validation of `ray_shape` happens here: the
string is stored as-is (source line 146). -/
noncomputable def MipNerf.init (cfg : MipConfig) : Except InitErr MipModel :=
  let mlp_xyz_dim := (cfg.max_deg_point - cfg.min_deg_point) * 3 * 2
  let mlp_view_dim :=
    if cfg.append_identity then cfg.deg_view * 3 * 2 + 3 else cfg.deg_view * 3 * 2
  match MLP.initShape cfg.mlp_net_depth cfg.mlp_net_width cfg.mlp_net_depth_condition
      cfg.mlp_net_width_condition cfg.mlp_skip_index cfg.mlp_num_rgb_channels
      cfg.mlp_num_density_channels cfg.mlp_net_activation mlp_xyz_dim mlp_view_dim with
  | .error e => .error e
  | .ok shape =>
    if cfg.rgb_activation = "sigmoid" then
      if cfg.density_activation = "softplus" then
        .ok { num_levels := cfg.num_levels
              num_samples := cfg.num_samples
              disparity := cfg.disparity
              ray_shape := cfg.ray_shape
              disable_integration := cfg.disable_integration
              min_deg_point := cfg.min_deg_point
              max_deg_point := cfg.max_deg_point
              use_viewdirs := cfg.use_viewdirs
              deg_view := cfg.deg_view
              density_noise := cfg.density_noise
              density_bias := cfg.density_bias
              resample_padding := cfg.resample_padding
              rgb_padding := cfg.rgb_padding
              stop_resample_grad := cfg.stop_resample_grad
              rgb_activation := sigmoid
              density_activation := softplus
              mlp_shape := shape
              mlp_view_dim := mlp_view_dim
              mlp_xyz_dim := mlp_xyz_dim }
      else .error .notImplemented
    else .error .notImplemented

/-- Whether `MipNerf.__init__` completes without raising. -/
noncomputable def initSucceeds (cfg : MipConfig) : Bool :=
  match MipNerf.init cfg with
  | .ok _ => true
  | .error _ => false

/-! ## Positional encoders

`integrated_pos_enc` and `pos_enc` are imported from `models/mip.py`, which
is not part of the given sources; they are modelled from the spec (§4.2). -/

/-- Modelled from the spec: `integrated_pos_enc` of `models/mip.py` is
absent from the sources.  Spec §4.2: for each frequency `2^j`,
`j ∈ [min_deg, max_deg)`, the expected sine and cosine of the projected
coordinate under the per-axis Gaussian `(mean, variance)` is the true
sine/cosine scaled by `exp (-1/2 · 4^j · variance)`; output ordering is the
deterministic interleave of sin then cos per frequency per spatial axis,
frequency-major.  `sample` is the list of per-axis (mean, variance) pairs of
one sample. -/
noncomputable def integrated_pos_enc (sample : List (ℝ × ℝ)) (min_deg max_deg : ℕ) :
    List ℝ :=
  ((List.range (max_deg - min_deg)).map (fun k =>
    (sample.map (fun p =>
      [Real.sin ((2 : ℝ) ^ (min_deg + k) * p.1) *
         Real.exp (-(1 / 2) * (4 : ℝ) ^ (min_deg + k) * p.2),
       Real.cos ((2 : ℝ) ^ (min_deg + k) * p.1) *
         Real.exp (-(1 / 2) * (4 : ℝ) ^ (min_deg + k) * p.2)])).flatten)).flatten

/-- Modelled from the spec: `pos_enc` of `models/mip.py` is absent from the
sources.  Spec §4.2: the plain variant is the standard multi-frequency
sin/cos encoding with no variance attenuation, same ordering as the
integrated variant, with an option to append the raw (un-encoded)
components to the output. -/
noncomputable def pos_enc (x : List ℝ) (min_deg max_deg : ℕ) (append_identity : Bool) :
    List ℝ :=
  let enc := ((List.range (max_deg - min_deg)).map (fun k =>
    (x.map (fun xi =>
      [Real.sin ((2 : ℝ) ^ (min_deg + k) * xi),
       Real.cos ((2 : ℝ) ^ (min_deg + k) * xi)])).flatten)).flatten
  if append_identity then enc ++ x else enc

/-! ## The forward orchestrator (source lines 172-248) -/

/-- The ray batch consumed by `MipNerf.forward` (a `namedtuple` in the
source).  The fields the orchestrator merely forwards to the samplers keep
an abstract tensor type `T`; the view directions are consumed concretely by
the view encoder. -/
structure Rays (T : Type) where
  origins : T
  directions : T
  radii : T
  viewdirs : List ℝ
  near : T
  far : T

/-- The collaborators `MipNerf.forward` calls but whose code is outside the
given sources (`sample_along_rays`, `resample_along_rays`,
`volumetric_rendering` from `models/mip.py`, the learned MLP, and
`torch.randn`).  They are parameters of the embedding; each potentially
random one threads the ambient generator state `S`.  Argument order follows
the call sites in the source.  `TS` is the type of `t_samples`, `Ww` of the
per-sample weights, `Cc`, `Dd`, `Aa` of the composited color, distance and
accumulated opacity.  The samplers return the sample positions together
with the per-sample per-axis `(mean, variance)` Gaussians. -/
structure MipComponents (T S TS Cc Dd Aa Ww : Type) where
  sample_along_rays : T → T → T → ℕ → T → T → Bool → Bool → String → S →
    (TS × List (List (ℝ × ℝ))) × S
  resample_along_rays : T → T → T → TS → Ww → Bool → String → Bool → ℚ → S →
    (TS × List (List (ℝ × ℝ))) × S
  mlp : List (List ℝ) → Option (List ℝ) → List (List ℝ) × List ℝ
  randn : S → ℕ → List ℝ × S
  volumetric_rendering : List (List ℝ) → List ℝ → TS → T → Bool →
    Cc × Dd × Aa × Ww

/-- One element of the list returned by `MipNerf.forward`: the 5-tuple
`(comp_rgb, distance, acc, weights, t_samples)` appended at source
line 246. -/
structure RenderOutput (Cc Dd Aa Ww TS : Type) where
  comp_rgb : Cc
  distance : Dd
  acc : Aa
  weights : Ww
  t_samples : TS

/-- Source lines 211-217: if `disable_integration` is set, the covariances
are replaced by zeros (`torch.zeros_like`) before the integrated positional
encoding of the samples. -/
noncomputable def MipNerf.levelEncoding (m : MipModel)
    (means_covs : List (List (ℝ × ℝ))) : List (List ℝ) :=
  let mc :=
    if m.disable_integration then
      means_covs.map (fun sample => sample.map (fun p => (p.1, 0)))
    else means_covs
  mc.map (fun sample => integrated_pos_enc sample m.min_deg_point m.max_deg_point)

/-- Source lines 221-226: the view-direction encoding of the forward pass.
The source passes the literal `append_identity=True` here, regardless of
the `append_identity` value the model was constructed with. -/
noncomputable def MipNerf.viewdirsEnc (m : MipModel) (viewdirs : List ℝ) : List ℝ :=
  pos_enc viewdirs 0 m.deg_view true

/-- Source lines 231-233: when the call is randomized and the configured
noise scale is positive, a draw of `torch.randn` of the shape of
`raw_density` is scaled by `density_noise` and added; otherwise the raw
density is untouched and the generator state is not consumed. -/
def MipNerf.noisedDensity {T S TS Cc Dd Aa Ww : Type}
    (C : MipComponents T S TS Cc Dd Aa Ww) (m : MipModel) (randomized : Bool)
    (raw_density : List ℝ) (s : S) : List ℝ × S :=
  if randomized ∧ 0 < m.density_noise then
    let r := C.randn s raw_density.length
    (List.zipWith (fun x e => x + (m.density_noise : ℝ) * e) raw_density r.1, r.2)
  else (raw_density, s)

/-- Source lines 236-237: the color activation followed by the padding
remap `rgb * (1 + 2 * rgb_padding) - rgb_padding`, elementwise. -/
def MipNerf.rgbArg (m : MipModel) (raw_rgb : List (List ℝ)) : List (List ℝ) :=
  raw_rgb.map (List.map (fun x =>
    m.rgb_activation x * (1 + 2 * (m.rgb_padding : ℝ)) - (m.rgb_padding : ℝ)))

/-- Source line 238: the density activation applied to the (possibly
noised) raw density shifted by `density_bias`, elementwise. -/
def MipNerf.densityArg (m : MipModel) (raw_density : List ℝ) : List ℝ :=
  raw_density.map (fun x => m.density_activation (x + (m.density_bias : ℝ)))

/-- One iteration of the level loop of `MipNerf.forward` (source lines
184-246).  `prev` carries `(t_samples, weights)` of the previous level;
`none` means this is level 0, which samples with the stratified ray
sampler, while later levels resample from the previous level's samples and
weights.  The body then encodes the samples (zeroing covariances if
integration is disabled), runs the MLP (conditioned on the encoded view
directions when `use_viewdirs` is set), optionally noises the raw density,
applies the color and density activations, and renders. -/
noncomputable def MipNerf.level {T S TS Cc Dd Aa Ww : Type}
    (C : MipComponents T S TS Cc Dd Aa Ww) (m : MipModel) (rays : Rays T)
    (randomized white_bkgd : Bool) (prev : Option (TS × Ww)) (s : S) :
    RenderOutput Cc Dd Aa Ww TS × S :=
  let smc :=
    match prev with
    | none =>
      C.sample_along_rays rays.origins rays.directions rays.radii m.num_samples
        rays.near rays.far randomized m.disparity m.ray_shape s
    | some pw =>
      C.resample_along_rays rays.origins rays.directions rays.radii pw.1 pw.2
        randomized m.ray_shape m.stop_resample_grad m.resample_padding s
  let t_samples := smc.1.1
  let samples_enc := MipNerf.levelEncoding m smc.1.2
  let rr :=
    if m.use_viewdirs then
      C.mlp samples_enc (some (MipNerf.viewdirsEnc m rays.viewdirs))
    else C.mlp samples_enc none
  let nd := MipNerf.noisedDensity C m randomized rr.2 smc.2
  let rgb := MipNerf.rgbArg m rr.1
  let density := MipNerf.densityArg m nd.1
  let vr := C.volumetric_rendering rgb density t_samples rays.directions white_bkgd
  ({ comp_rgb := vr.1
     distance := vr.2.1
     acc := vr.2.2.1
     weights := vr.2.2.2
     t_samples := t_samples }, nd.2)

/-- The level loop of `MipNerf.forward`: runs the given number of levels,
passing each level's `(t_samples, weights)` to the next, collecting the
per-level outputs in order. -/
noncomputable def MipNerf.go {T S TS Cc Dd Aa Ww : Type}
    (C : MipComponents T S TS Cc Dd Aa Ww) (m : MipModel) (rays : Rays T)
    (randomized white_bkgd : Bool) :
    ℕ → Option (TS × Ww) → S → List (RenderOutput Cc Dd Aa Ww TS) × S
  | 0, _, s => ([], s)
  | n + 1, prev, s =>
    let osp := MipNerf.level C m rays randomized white_bkgd prev s
    let rest := MipNerf.go C m rays randomized white_bkgd n
      (some (osp.1.t_samples, osp.1.weights)) osp.2
    (osp.1 :: rest.1, rest.2)

/-- `MipNerf.forward` (source lines 172-248): `num_levels` iterations of
the level loop starting with no previous level, threading the ambient
generator state. -/
noncomputable def MipNerf.forward {T S TS Cc Dd Aa Ww : Type}
    (C : MipComponents T S TS Cc Dd Aa Ww) (m : MipModel) (rays : Rays T)
    (randomized white_bkgd : Bool) (s : S) :
    List (RenderOutput Cc Dd Aa Ww TS) × S :=
  MipNerf.go C m rays randomized white_bkgd m.num_levels none s

/-! ## Derived definitions used by the claims -/

/-- The per-sample color produced by source lines 236-237 when the
constructed color activation (sigmoid) is in place:
`sigmoid raw * (1 + 2 * p) - p` for padding `p`. -/
noncomputable def paddedColor (p : ℚ) (x : ℝ) : ℝ :=
  sigmoid x * (1 + 2 * (p : ℝ)) - (p : ℝ)

/-- Modelled from the spec: `volumetric_rendering` of `models/mip.py` is
absent from the sources.  Spec §4.6 step 7: each component of the
composited color is the weight-weighted sum of the per-sample color
components, before any background compositing. -/
def weightedSum (ws vs : List ℝ) : ℝ := (List.zipWith (fun w v => w * v) ws vs).sum

/-- Observation of a constructed model used to compare the view-encoding
width the MLP was built for (`mlp_view_dim`, source line 158) with the
length of the view encoding the forward pass actually produces for a unit
3-vector view direction (source lines 221-226). -/
noncomputable def initViewInfo (cfg : MipConfig) : Option (ℕ × ℕ) :=
  match MipNerf.init cfg with
  | .ok m => some (m.mlp_view_dim, (MipNerf.viewdirsEnc m [0, 0, 0]).length)
  | .error _ => none

/-! ## Concrete configurations and toy component instantiations

These closed values instantiate the abstract parameters of the embedding in
witnesses and counterexamples. -/

/-- The default configuration with an unsupported ray shape. -/
def cfgBanana : MipConfig := { defaultConfig with ray_shape := "banana" }

/-- The default configuration with the raw view direction not appended. -/
def cfgNoAppend : MipConfig := { defaultConfig with append_identity := false }

/-- The default configuration with an unsupported density activation. -/
def cfgBadDensity : MipConfig := { defaultConfig with density_activation := "exp" }

/-- A closed instantiation of the orchestrator's collaborators: the state
is a counter, `t_samples` a natural number, weights a natural number, and
`torch.randn` returns the current counter value (cast to `ℝ`) and advances
the counter, which is how a stateful global generator behaves. -/
noncomputable def toyComponents : MipComponents Unit ℕ ℕ (List ℝ) Unit Unit ℕ :=
  { sample_along_rays := fun _ _ _ _ _ _ _ _ _ s => ((5, [[(0, 0)]]), s)
    resample_along_rays := fun _ _ _ ts w _ _ _ _ s => ((ts + w, [[(0, 0)]]), s)
    mlp := fun _ _ => ([[0, 0, 0]], [0])
    randn := fun s n => (List.replicate n (s : ℝ), s + 1)
    volumetric_rendering := fun _ density _ _ _ => (density, (), (), 3) }

/-- A second resampler, used to observe that a single-level forward never
consults the resampler. -/
def toyResample2 : Unit → Unit → Unit → ℕ → ℕ → Bool → String → Bool → ℚ → ℕ →
    (ℕ × List (List (ℝ × ℝ))) × ℕ :=
  fun _ _ _ ts w _ _ _ _ s => ((ts + w + 100, []), s)

/-- A small shape record for toy models. -/
def mlpShape0 : MLPShape :=
  { layerDims := []
    density_dims := (0, 0)
    extra_dims := (0, 0)
    viewDims := []
    color_dims := (0, 0) }

/-- A closed two-level model with unit noise scale and zero density bias. -/
noncomputable def toyModel : MipModel :=
  { num_levels := 2
    num_samples := 4
    disparity := false
    ray_shape := "cone"
    disable_integration := false
    min_deg_point := 0
    max_deg_point := 1
    use_viewdirs := false
    deg_view := 1
    density_noise := 1
    density_bias := 0
    resample_padding := 0
    rgb_padding := 0
    stop_resample_grad := true
    rgb_activation := sigmoid
    density_activation := softplus
    mlp_shape := mlpShape0
    mlp_view_dim := 9
    mlp_xyz_dim := 6 }

/-- The toy model restricted to a single level. -/
noncomputable def cexModel : MipModel := { toyModel with num_levels := 1 }

/-- The toy model with integration disabled. -/
noncomputable def disModel : MipModel :=
  { toyModel with disable_integration := true, max_deg_point := 2 }

/-- A closed ray batch over the unit tensor type. -/
noncomputable def toyRays : Rays Unit :=
  { origins := ()
    directions := ()
    radii := ()
    viewdirs := [0, 0, 0]
    near := ()
    far := () }

/-- Three concrete layers of output width 2 for the width witness. -/
def wLayers : List Linear :=
  [ { weight := [[1], [2]], bias := [0, 0] },
    { weight := [[1, 1], [0, 1]], bias := [1, 1] },
    { weight := [[1, 0, 2], [1, 1, 1]], bias := [0, 1] } ]

/-! ## Helper lemmas -/

theorem buildReluStack_relu (ds : List (ℕ × ℕ)) : buildReluStack "relu" ds = .ok ds := by
  induction ds with
  | nil => rfl
  | cons d ds ih => simp [buildReluStack, ih]

theorem buildReluStack_not_relu (a : String) (h : ¬a = "relu") (d : ℕ × ℕ)
    (ds : List (ℕ × ℕ)) :
    buildReluStack a (d :: ds) = .error .notImplemented := by
  simp [buildReluStack, h]

theorem runLayersT_widths (net_width skip : ℕ) (inputs : List ℚ) :
    ∀ (ls : List Linear) (j : ℕ) (x : List ℚ),
      (∀ l ∈ ls, l.weight.length = net_width ∧ l.bias.length = net_width) →
      x.length = layerDimIn net_width inputs.length skip j →
      ∀ i, i < ls.length →
        ((runLayersT skip inputs ls j x).2).getD i 0 =
          layerDimIn net_width inputs.length skip (j + i) := by
  intro ls
  induction ls with
  | nil => intro j x _ _ i hi; simp at hi
  | cons l ls ih =>
    intro j x hshapes hx i hi
    match i with
    | 0 => simpa [runLayersT] using hx
    | i + 1 =>
      have hl := hshapes l (List.mem_cons_self l ls)
      have hnext :
          (if j % skip = 0 ∧ 0 < j then ((l.apply x).map relu) ++ inputs
            else (l.apply x).map relu).length =
            layerDimIn net_width inputs.length skip (j + 1) := by
        have happ : ((l.apply x).map relu).length = net_width := by
          simp [Linear.apply, hl.1, hl.2]
        by_cases hc : j % skip = 0 ∧ 0 < j
        · have h1 : (j + 1) - 1 = j := by omega
          have h2 : 1 < j + 1 := by omega
          simp [hc, happ, layerDimIn, h1, hc.1, h2]
        · have : ¬((j + 1 - 1) % skip = 0 ∧ 1 < j + 1) := by
            intro hcon
            exact hc ⟨by simpa using hcon.1, by omega⟩
          simp [hc, happ, layerDimIn, this]
      have := ih (j + 1) _
        (fun l' hl' => hshapes l' (List.mem_cons_of_mem l hl')) hnext i (by
          simpa using Nat.lt_of_succ_lt_succ hi)
      have harith : j + 1 + i = j + (i + 1) := by omega
      rw [harith] at this
      simpa [runLayersT] using this

/-! ## Claim theorems -/

/-- C10: `MLP.forward` returns the same raw density for every view-direction
argument (including `none` versus any vector): the density head reads the
first stack's final hidden state, which is computed before any view
conditioning (source lines 94-98). -/
theorem mlp_density_view_independent (p : MLPParams) (x : List (List ℚ))
    (v₁ v₂ : Option (List ℚ)) :
    (MLP.forward p x v₁).2 = (MLP.forward p x v₂).2 := rfl

/-- C8: in the first MLP stack, the width of the tensor entering each layer
during the forward pass (after the skip reinjection of the original encoded
input following every `skip_index`-th layer) equals the construction-time
input width `layerDimIn` of that layer, so the forward pass's per-layer
tensor widths match the constructed layer widths.  (`1 ≤ skip` reflects
that Python's `%` requires a nonzero `skip_index`.) -/
theorem mlp_skip_widths (net_width xyz skip : ℕ) (layers : List Linear)
    (x : List ℚ) (_hskip : 1 ≤ skip)
    (hshapes : ∀ l ∈ layers, l.weight.length = net_width ∧ l.bias.length = net_width)
    (hx : x.length = xyz) :
    ∀ i, i < layers.length →
      ((runLayersT skip x layers 0 x).2).getD i 0 = layerDimIn net_width xyz skip i := by
  intro i hi
  have h0 : x.length = layerDimIn net_width x.length skip 0 := by simp [layerDimIn]
  have := runLayersT_widths net_width skip x layers 0 x hshapes h0 i hi
  simpa [hx] using this

/-- Witness for C8 at a concrete three-layer stack. -/
theorem mlp_skip_widths_w :
    ((runLayersT 1 [(3 : ℚ)] wLayers 0 [(3 : ℚ)]).2).getD 2 0 = layerDimIn 2 1 1 2 :=
  mlp_skip_widths 2 1 1 wLayers [(3 : ℚ)] (by decide) (by decide) rfl 2 (by decide)

/-- C2 counterexample: constructing a model with the unsupported ray shape
`"banana"` (defaults otherwise) succeeds — `MipNerf.__init__` stores
`ray_shape` without validating it (source line 146), so an unsupported ray
shape does not raise at construction time, contrary to the claim. -/
theorem mip_init_shape_unchecked :
    cfgBanana.ray_shape = "banana" ∧ initSucceeds cfgBanana = true :=
  ⟨rfl, rfl⟩

theorem layerDimInE_ok (w x skip i : ℕ) (h : skip ≠ 0) :
    layerDimInE w x skip i = .ok (layerDimIn w x skip i) := by
  by_cases h0 : i = 0
  · simp [layerDimInE, layerDimIn, h0]
  · by_cases h1 : (i - 1) % skip = 0 ∧ 1 < i <;>
      simp [layerDimInE, layerDimIn, h0, h, h1]

theorem buildFirstStack_relu_ok (w x skip : ℕ) (h : skip ≠ 0) :
    ∀ is : List ℕ, buildFirstStack w x skip "relu" is =
      .ok (is.map (fun i => (layerDimIn w x skip i, w))) := by
  intro is
  induction is with
  | nil => rfl
  | cons i is ih => simp [buildFirstStack, layerDimInE_ok w x skip i h, ih]

theorem buildFirstStack_eq (w x skip : ℕ) (act : String) (d : ℕ) :
    buildFirstStack w x skip act (List.range d) =
      if act = "relu" then
        (if skip = 0 ∧ 2 ≤ d then .error .zeroDivision
         else .ok ((List.range d).map (fun i => (layerDimIn w x skip i, w))))
      else if d = 0 then .ok [] else .error .notImplemented := by
  by_cases hr : act = "relu"
  · subst hr
    by_cases hk : skip = 0
    · subst hk
      match d with
      | 0 => simp [buildFirstStack]
      | 1 =>
        have h1 : List.range 1 = [0] := rfl
        simp [h1, buildFirstStack, layerDimInE, layerDimIn]
      | (k + 2) =>
        rw [if_pos rfl, if_pos (⟨rfl, by omega⟩ : (0 : ℕ) = 0 ∧ 2 ≤ k + 2)]
        rw [List.range_succ_eq_map, List.range_succ_eq_map]
        simp [buildFirstStack, layerDimInE]
    · rw [buildFirstStack_relu_ok w x skip hk (List.range d)]
      have hzd : ¬(skip = 0 ∧ 2 ≤ d) := fun hc => hk hc.1
      simp [hzd]
  · match d with
    | 0 => simp [buildFirstStack, hr]
    | (k + 1) =>
      rw [List.range_succ_eq_map]
      simp [buildFirstStack, layerDimInE, hr]

theorem buildReluStack_eq (act : String) (ds : List (ℕ × ℕ)) :
    buildReluStack act ds =
      if act = "relu" then .ok ds
      else if ds = [] then .ok [] else .error .notImplemented := by
  by_cases hr : act = "relu"
  · subst hr
    simp [buildReluStack_relu]
  · match ds with
    | [] => simp [buildReluStack, hr]
    | d :: ds => simp [buildReluStack_not_relu act hr, hr]

theorem initShape_eq (nd nw ndc nwc skip nrgb nden : ℕ) (act : String)
    (xyz vd : ℕ) :
    MLP.initShape nd nw ndc nwc skip nrgb nden act xyz vd =
      if act = "relu" then
        (if skip = 0 ∧ 2 ≤ nd then .error .zeroDivision
         else .ok
           { layerDims := (List.range nd).map (fun i => (layerDimIn nw xyz skip i, nw))
             density_dims := (nw, nden)
             extra_dims := (nw, nw)
             viewDims := (List.range ndc).map
               (fun i => (if i = 0 then nw + vd else nwc, nwc))
             color_dims := (nwc, nrgb) })
      else if nd = 0 ∧ ndc = 0 then
        .ok { layerDims := []
              density_dims := (nw, nden)
              extra_dims := (nw, nw)
              viewDims := []
              color_dims := (nwc, nrgb) }
      else .error .notImplemented := by
  unfold MLP.initShape
  rw [buildFirstStack_eq, buildReluStack_eq]
  by_cases hr : act = "relu"
  · subst hr
    by_cases hzd : skip = 0 ∧ 2 ≤ nd <;> simp [hzd]
  · by_cases h1 : nd = 0 <;> by_cases h2 : ndc = 0 <;>
      simp [hr, h1, h2, List.range_eq_nil]

/-- C2 amended: construction fails exactly when the hidden activation is
unsupported and at least one MLP stack is nonempty (`NotImplementedError`),
or `mlp_skip_index = 0` with `mlp_net_depth ≥ 2` (`ZeroDivisionError` from
`(i - 1) % skip_index` at source line 39), or the rgb activation is not
`"sigmoid"`, or the density activation is not `"softplus"`.  The condition
does not mention `ray_shape`: unsupported ray shapes are not checked at
construction. -/
theorem mip_init_error_iff (cfg : MipConfig) :
    initSucceeds cfg = false ↔
      (cfg.mlp_net_activation ≠ "relu" ∧
        (1 ≤ cfg.mlp_net_depth ∨ 1 ≤ cfg.mlp_net_depth_condition))
      ∨ (cfg.mlp_skip_index = 0 ∧ 2 ≤ cfg.mlp_net_depth)
      ∨ cfg.rgb_activation ≠ "sigmoid" ∨ cfg.density_activation ≠ "softplus" := by
  by_cases hr : cfg.mlp_net_activation = "relu"
  · by_cases hzd : cfg.mlp_skip_index = 0 ∧ 2 ≤ cfg.mlp_net_depth
    · have hfail : initSucceeds cfg = false := by
        simp [initSucceeds, MipNerf.init, initShape_eq, hr, hzd]
      exact iff_of_true hfail (Or.inr (Or.inl hzd))
    · by_cases hs : cfg.rgb_activation = "sigmoid" <;>
        by_cases hd : cfg.density_activation = "softplus" <;>
          simp [initSucceeds, MipNerf.init, initShape_eq, hr, hzd, hs, hd]
  · have hone : 1 ≤ cfg.mlp_net_depth ∨ 1 ≤ cfg.mlp_net_depth_condition ∨
        (cfg.mlp_net_depth = 0 ∧ cfg.mlp_net_depth_condition = 0) := by omega
    rcases hone with h1 | h1 | h1
    · have h1' : cfg.mlp_net_depth ≠ 0 := by omega
      have hfail : initSucceeds cfg = false := by
        simp [initSucceeds, MipNerf.init, initShape_eq, hr, h1']
      exact iff_of_true hfail (Or.inl ⟨hr, Or.inl h1⟩)
    · rcases Nat.eq_zero_or_pos cfg.mlp_net_depth with h2 | h2
      · have h1' : cfg.mlp_net_depth_condition ≠ 0 := by omega
        have hfail : initSucceeds cfg = false := by
          simp [initSucceeds, MipNerf.init, initShape_eq, hr, h2, h1']
        exact iff_of_true hfail (Or.inl ⟨hr, Or.inr h1⟩)
      · have h2' : cfg.mlp_net_depth ≠ 0 := by omega
        have hfail : initSucceeds cfg = false := by
          simp [initSucceeds, MipNerf.init, initShape_eq, hr, h2']
        exact iff_of_true hfail (Or.inl ⟨hr, Or.inr h1⟩)
    · by_cases hs : cfg.rgb_activation = "sigmoid" <;>
        by_cases hd : cfg.density_activation = "softplus" <;>
          simp [initSucceeds, MipNerf.init, initShape_eq, hr, h1.1, h1.2, hs, hd]

/-- Witness for C2's amended statement: an unsupported density activation
makes construction fail. -/
theorem mip_init_error_iff_w : initSucceeds cfgBadDensity = false :=
  (mip_init_error_iff cfgBadDensity).mpr (Or.inr (Or.inr (Or.inr (by decide))))

theorem mip_go_length {T S TS Cc Dd Aa Ww : Type}
    (C : MipComponents T S TS Cc Dd Aa Ww) (m : MipModel) (rays : Rays T)
    (randomized white_bkgd : Bool) :
    ∀ (n : ℕ) (prev : Option (TS × Ww)) (s : S),
      (MipNerf.go C m rays randomized white_bkgd n prev s).1.length = n := by
  intro n
  induction n with
  | zero => intro prev s; rfl
  | succ n ih => intro prev s; simp [MipNerf.go, ih]

theorem mip_go_head {T S TS Cc Dd Aa Ww : Type}
    (C : MipComponents T S TS Cc Dd Aa Ww) (m : MipModel) (rays : Rays T)
    (randomized white_bkgd : Bool) (n : ℕ) (prev : Option (TS × Ww)) (s : S)
    (h : 0 < n) :
    (MipNerf.go C m rays randomized white_bkgd n prev s).1.head? =
      some (MipNerf.level C m rays randomized white_bkgd prev s).1 := by
  match n with
  | 0 => exact absurd h (by omega)
  | n + 1 => rfl

theorem mip_go_chain {T S TS Cc Dd Aa Ww : Type}
    (C : MipComponents T S TS Cc Dd Aa Ww) (m : MipModel) (rays : Rays T)
    (randomized white_bkgd : Bool) :
    ∀ (n : ℕ) (prev : Option (TS × Ww)) (s : S) (k : ℕ)
      (o o' : RenderOutput Cc Dd Aa Ww TS),
      (MipNerf.go C m rays randomized white_bkgd n prev s).1.get? k = some o →
      (MipNerf.go C m rays randomized white_bkgd n prev s).1.get? (k + 1) = some o' →
      ∃ s', o' = (MipNerf.level C m rays randomized white_bkgd
        (some (o.t_samples, o.weights)) s').1 := by
  intro n
  induction n with
  | zero => intro prev s k o o' h1 _; simp [MipNerf.go] at h1
  | succ n ih =>
    intro prev s k o o' h1 h2
    match k with
    | 0 =>
      simp [MipNerf.go] at h1 h2
      match n, h2 with
      | n + 1, h2 =>
        simp [MipNerf.go] at h2
        exact ⟨(MipNerf.level C m rays randomized white_bkgd prev s).2,
          by rw [← h2, ← h1]⟩
    | k + 1 =>
      simp only [MipNerf.go, List.get?_cons_succ] at h1 h2
      exact ih _ _ k o o' h1 h2

/-- C1: `MipNerf.forward` returns one `RenderOutput` per level, level 0
first: the list has length `num_levels`; its first entry is the output of
the level body run with no previous level, whose sample set comes from the
stratified ray sampler at the incoming generator state; and every entry
`k+1` is the output of the level body run on the `(t_samples, weights)` of
entry `k`, whose sample set comes from the resampler consuming exactly that
pair.  Each entry carries the 5-tuple (composited color, expected distance,
accumulated opacity, per-sample weights, sample set) by the type of
`RenderOutput`. -/
theorem mip_forward_levels {T S TS Cc Dd Aa Ww : Type}
    (C : MipComponents T S TS Cc Dd Aa Ww) (m : MipModel) (rays : Rays T)
    (randomized white_bkgd : Bool) (s : S) :
    (MipNerf.forward C m rays randomized white_bkgd s).1.length = m.num_levels
    ∧ (0 < m.num_levels →
        (MipNerf.forward C m rays randomized white_bkgd s).1.head? =
          some (MipNerf.level C m rays randomized white_bkgd none s).1)
    ∧ (∀ (k : ℕ) (o o' : RenderOutput Cc Dd Aa Ww TS),
        (MipNerf.forward C m rays randomized white_bkgd s).1.get? k = some o →
        (MipNerf.forward C m rays randomized white_bkgd s).1.get? (k + 1) = some o' →
        ∃ s', o' = (MipNerf.level C m rays randomized white_bkgd
          (some (o.t_samples, o.weights)) s').1)
    ∧ (∀ s₀ : S,
        ((MipNerf.level C m rays randomized white_bkgd none s₀).1).t_samples =
          (C.sample_along_rays rays.origins rays.directions rays.radii m.num_samples
            rays.near rays.far randomized m.disparity m.ray_shape s₀).1.1)
    ∧ (∀ (ts : TS) (w : Ww) (s₀ : S),
        ((MipNerf.level C m rays randomized white_bkgd (some (ts, w)) s₀).1).t_samples =
          (C.resample_along_rays rays.origins rays.directions rays.radii ts w
            randomized m.ray_shape m.stop_resample_grad m.resample_padding s₀).1.1) :=
  ⟨mip_go_length C m rays randomized white_bkgd m.num_levels none s,
   fun h => mip_go_head C m rays randomized white_bkgd m.num_levels none s h,
   fun k o o' h1 h2 =>
     mip_go_chain C m rays randomized white_bkgd m.num_levels none s k o o' h1 h2,
   fun _ => rfl,
   fun _ _ _ => rfl⟩

/-- Witness for C1 at the toy instantiation. -/
theorem mip_forward_levels_w :
    (MipNerf.forward toyComponents toyModel toyRays false false 0).1.length = 2
    ∧ (MipNerf.forward toyComponents toyModel toyRays false false 0).1.head? =
        some (MipNerf.level toyComponents toyModel toyRays false false none 0).1 := by
  have h := mip_forward_levels toyComponents toyModel toyRays false false 0
  exact ⟨h.1.trans rfl, h.2.1 (by decide)⟩

/-- C9: with `num_levels = 1` the forward pass never consults the
resampler — its result is unchanged when the resampler component is
replaced by any other function — and returns a sequence of length
exactly 1. -/
theorem mip_single_level {T S TS Cc Dd Aa Ww : Type}
    (C : MipComponents T S TS Cc Dd Aa Ww)
    (g : T → T → T → TS → Ww → Bool → String → Bool → ℚ → S →
      (TS × List (List (ℝ × ℝ))) × S)
    (m : MipModel) (rays : Rays T) (randomized white_bkgd : Bool) (s : S)
    (h : m.num_levels = 1) :
    MipNerf.forward C m rays randomized white_bkgd s =
      MipNerf.forward { C with resample_along_rays := g } m rays randomized
        white_bkgd s
    ∧ (MipNerf.forward C m rays randomized white_bkgd s).1.length = 1 := by
  constructor
  · unfold MipNerf.forward
    rw [h]
    rfl
  · exact (mip_go_length C m rays randomized white_bkgd m.num_levels none s).trans h

/-- Witness for C9 at the toy instantiation. -/
theorem mip_single_level_w :
    MipNerf.forward toyComponents cexModel toyRays true false 0 =
      MipNerf.forward { toyComponents with resample_along_rays := toyResample2 }
        cexModel toyRays true false 0
    ∧ (MipNerf.forward toyComponents cexModel toyRays true false 0).1.length = 1 :=
  mip_single_level toyComponents toyResample2 cexModel toyRays true false 0 rfl

theorem mip_level_unrandomized {T S TS Cc Dd Aa Ww : Type}
    (C : MipComponents T S TS Cc Dd Aa Ww) (m : MipModel) (rays : Rays T)
    (white_bkgd : Bool) (prev : Option (TS × Ww)) (s s' : S)
    (hs : ∀ o d r n nr fa disp sh (s₁ s₂ : S),
      (C.sample_along_rays o d r n nr fa false disp sh s₁).1 =
        (C.sample_along_rays o d r n nr fa false disp sh s₂).1 ∧
      (C.sample_along_rays o d r n nr fa false disp sh s₁).2 = s₁)
    (hr : ∀ o d r ts w sh sg pad (s₁ s₂ : S),
      (C.resample_along_rays o d r ts w false sh sg pad s₁).1 =
        (C.resample_along_rays o d r ts w false sh sg pad s₂).1 ∧
      (C.resample_along_rays o d r ts w false sh sg pad s₁).2 = s₁) :
    MipNerf.level C m rays false white_bkgd prev s =
      ((MipNerf.level C m rays false white_bkgd prev s').1, s) := by
  cases prev with
  | none =>
    obtain ⟨h1, h2⟩ := hs rays.origins rays.directions rays.radii m.num_samples
      rays.near rays.far m.disparity m.ray_shape s s'
    simp only [MipNerf.level, MipNerf.noisedDensity, Bool.false_eq_true, false_and,
      if_false]
    rw [h1, h2]
  | some pw =>
    obtain ⟨h1, h2⟩ := hr rays.origins rays.directions rays.radii pw.1 pw.2
      m.ray_shape m.stop_resample_grad m.resample_padding s s'
    simp only [MipNerf.level, MipNerf.noisedDensity, Bool.false_eq_true, false_and,
      if_false]
    rw [h1, h2]

theorem mip_go_unrandomized {T S TS Cc Dd Aa Ww : Type}
    (C : MipComponents T S TS Cc Dd Aa Ww) (m : MipModel) (rays : Rays T)
    (white_bkgd : Bool)
    (hs : ∀ o d r n nr fa disp sh (s₁ s₂ : S),
      (C.sample_along_rays o d r n nr fa false disp sh s₁).1 =
        (C.sample_along_rays o d r n nr fa false disp sh s₂).1 ∧
      (C.sample_along_rays o d r n nr fa false disp sh s₁).2 = s₁)
    (hr : ∀ o d r ts w sh sg pad (s₁ s₂ : S),
      (C.resample_along_rays o d r ts w false sh sg pad s₁).1 =
        (C.resample_along_rays o d r ts w false sh sg pad s₂).1 ∧
      (C.resample_along_rays o d r ts w false sh sg pad s₁).2 = s₁) :
    ∀ (n : ℕ) (prev : Option (TS × Ww)) (s s' : S),
      MipNerf.go C m rays false white_bkgd n prev s =
        ((MipNerf.go C m rays false white_bkgd n prev s').1, s) := by
  intro n
  induction n with
  | zero => intro prev s s'; rfl
  | succ n ih =>
    intro prev s s'
    have hl := mip_level_unrandomized C m rays white_bkgd prev s s' hs hr
    simp only [MipNerf.go]
    rw [hl]
    rw [ih (some (((MipNerf.level C m rays false white_bkgd prev s').1).t_samples,
          ((MipNerf.level C m rays false white_bkgd prev s').1).weights)) s
        ((MipNerf.level C m rays false white_bkgd prev s').2)]

/-- C3 amended: `MipNerf.forward` takes no seed argument; its randomness is
the ambient global generator, modelled here as the threaded state `s`.
When `randomized = false` no generator draw happens anywhere in the call
(given that the samplers are deterministic and do not consume the generator
when not randomized, as §4.3-4.4 specify), so the output is independent of
the generator state and the state is left unchanged: non-randomized calls
are deterministic. -/
theorem mip_forward_deterministic_unrandomized {T S TS Cc Dd Aa Ww : Type}
    (C : MipComponents T S TS Cc Dd Aa Ww) (m : MipModel) (rays : Rays T)
    (white_bkgd : Bool) (s s' : S)
    (hs : ∀ o d r n nr fa disp sh (s₁ s₂ : S),
      (C.sample_along_rays o d r n nr fa false disp sh s₁).1 =
        (C.sample_along_rays o d r n nr fa false disp sh s₂).1 ∧
      (C.sample_along_rays o d r n nr fa false disp sh s₁).2 = s₁)
    (hr : ∀ o d r ts w sh sg pad (s₁ s₂ : S),
      (C.resample_along_rays o d r ts w false sh sg pad s₁).1 =
        (C.resample_along_rays o d r ts w false sh sg pad s₂).1 ∧
      (C.resample_along_rays o d r ts w false sh sg pad s₁).2 = s₁) :
    MipNerf.forward C m rays false white_bkgd s =
      ((MipNerf.forward C m rays false white_bkgd s').1, s) :=
  mip_go_unrandomized C m rays white_bkgd hs hr m.num_levels none s s'

/-- Witness for C3's amended statement at the toy instantiation, whose
samplers ignore and preserve the generator state. -/
theorem mip_forward_deterministic_unrandomized_w :
    MipNerf.forward toyComponents toyModel toyRays false false 0 =
      ((MipNerf.forward toyComponents toyModel toyRays false false 7).1, 0) :=
  mip_forward_deterministic_unrandomized toyComponents toyModel toyRays false 0 7
    (fun _ _ _ _ _ _ _ _ _ _ => ⟨rfl, rfl⟩)
    (fun _ _ _ _ _ _ _ _ _ _ => ⟨rfl, rfl⟩)

/-- C3 counterexample: with randomization on and a positive noise scale
(source lines 231-233 draw `torch.randn` from the ambient global generator;
`forward` has no seed parameter), two consecutive calls of
`MipNerf.forward` on identical inputs — the second picking up the
generator state the first left behind, as the global generator does —
return different outputs. -/
theorem mip_global_rng_cex :
    (MipNerf.forward toyComponents cexModel toyRays true false 0).1 ≠
      (MipNerf.forward toyComponents cexModel toyRays true false
        (MipNerf.forward toyComponents cexModel toyRays true false 0).2).1 := by
  intro h
  have hobs := congrArg (fun l => ((List.map
    (fun o : RenderOutput (List ℝ) Unit Unit ℕ ℕ => o.comp_rgb) l).flatten).headI) h
  have e1 : ((List.map (fun o : RenderOutput (List ℝ) Unit Unit ℕ ℕ => o.comp_rgb)
      (MipNerf.forward toyComponents cexModel toyRays true false 0).1).flatten).headI =
      softplus ((0 : ℝ) + ((1 : ℚ) : ℝ) * ((0 : ℕ) : ℝ) + ((0 : ℚ) : ℝ)) := rfl
  have e2 : ((List.map (fun o : RenderOutput (List ℝ) Unit Unit ℕ ℕ => o.comp_rgb)
      (MipNerf.forward toyComponents cexModel toyRays true false
        (MipNerf.forward toyComponents cexModel toyRays true false 0).2).1).flatten).headI =
      softplus ((0 : ℝ) + ((1 : ℚ) : ℝ) * ((1 : ℕ) : ℝ) + ((0 : ℚ) : ℝ)) := rfl
  simp only at hobs
  rw [e1, e2] at hobs
  have f1 : ((0 : ℝ) + ((1 : ℚ) : ℝ) * ((0 : ℕ) : ℝ) + ((0 : ℚ) : ℝ)) = 0 := by
    push_cast
    ring
  have f2 : ((0 : ℝ) + ((1 : ℚ) : ℝ) * ((1 : ℕ) : ℝ) + ((0 : ℚ) : ℝ)) = 1 := by
    push_cast
    ring
  rw [f1, f2] at hobs
  have hlt : softplus 0 < softplus 1 := by
    have h1 : Real.exp 0 < Real.exp 1 := Real.exp_lt_exp.mpr zero_lt_one
    have h2 : (0 : ℝ) < 1 + Real.exp 0 := by positivity
    have h3 : (1 : ℝ) + Real.exp 0 < 1 + Real.exp 1 := by linarith
    have := Real.log_lt_log h2 h3
    simpa [softplus] using this
  exact absurd hobs (ne_of_lt hlt)

/-- C4: defects at the failing input `append_identity = False` (defaults
otherwise).  The constructed model's MLP expects view encodings of width
`mlp_view_dim = 2 * 3 * deg_view = 24` (source lines 156-161), but the
forward pass encodes view directions with the hardcoded
`append_identity=True` (source line 225), producing 27 features for a
3-vector — the widths 24 and 27 do not match, so the claim's `False` case
is not respected by the forward pass. -/
theorem mip_view_dim_mismatch : initViewInfo cfgNoAppend = some (24, 27) := rfl

theorem sigmoid_bounds (x : ℝ) : 0 < sigmoid x ∧ sigmoid x < 1 := by
  have he : 0 < Real.exp (-x) := Real.exp_pos _
  constructor
  · exact div_pos one_pos (by linarith)
  · rw [sigmoid, div_lt_one (by linarith)]
    linarith

theorem weightedSum_le_mul (hi : ℝ) (hhi : 0 ≤ hi) :
    ∀ (ws vs : List ℝ), (∀ w ∈ ws, 0 ≤ w) → (∀ v ∈ vs, v ≤ hi) →
      weightedSum ws vs ≤ hi * ws.sum := by
  intro ws
  induction ws with
  | nil => intro vs _ _; simp [weightedSum]
  | cons w ws ih =>
    intro vs hw hv
    have hw0 : 0 ≤ w := hw w (List.mem_cons_self w ws)
    have hsum0 : 0 ≤ ws.sum :=
      List.sum_nonneg (fun a ha => hw a (List.mem_cons_of_mem w ha))
    cases vs with
    | nil =>
      simp only [weightedSum, List.zipWith_nil_right, List.sum_nil]
      have : (0 : ℝ) ≤ w + ws.sum := by linarith
      simpa [List.sum_cons] using mul_nonneg hhi this
    | cons v vs =>
      have h1 := ih vs (fun a ha => hw a (List.mem_cons_of_mem w ha))
        (fun a ha => hv a (List.mem_cons_of_mem v ha))
      have h2 : w * v ≤ w * hi :=
        mul_le_mul_of_nonneg_left (hv v (List.mem_cons_self v vs)) hw0
      have h3 : weightedSum (w :: ws) (v :: vs) = w * v + weightedSum ws vs := by
        simp [weightedSum]
      have h4 : hi * (w :: ws).sum = w * hi + hi * ws.sum := by
        simp [List.sum_cons]
        ring
      rw [h3, h4]
      linarith

theorem weightedSum_ge_mul (lo : ℝ) (hlo : lo ≤ 0) :
    ∀ (ws vs : List ℝ), (∀ w ∈ ws, 0 ≤ w) → (∀ v ∈ vs, lo ≤ v) →
      lo * ws.sum ≤ weightedSum ws vs := by
  intro ws
  induction ws with
  | nil => intro vs _ _; simp [weightedSum]
  | cons w ws ih =>
    intro vs hw hv
    have hw0 : 0 ≤ w := hw w (List.mem_cons_self w ws)
    have hsum0 : 0 ≤ ws.sum :=
      List.sum_nonneg (fun a ha => hw a (List.mem_cons_of_mem w ha))
    cases vs with
    | nil =>
      simp only [weightedSum, List.zipWith_nil_right, List.sum_nil]
      have : (0 : ℝ) ≤ w + ws.sum := by linarith
      have := mul_nonpos_of_nonpos_of_nonneg hlo this
      simpa [List.sum_cons] using this
    | cons v vs =>
      have h1 := ih vs (fun a ha => hw a (List.mem_cons_of_mem w ha))
        (fun a ha => hv a (List.mem_cons_of_mem v ha))
      have h2 : w * lo ≤ w * v :=
        mul_le_mul_of_nonneg_left (hv v (List.mem_cons_self v vs)) hw0
      have h3 : weightedSum (w :: ws) (v :: vs) = w * v + weightedSum ws vs := by
        simp [weightedSum]
      have h4 : lo * (w :: ws).sum = w * lo + lo * ws.sum := by
        simp [List.sum_cons]
        ring
      rw [h3, h4]
      linarith

/-- C5: the per-sample color handed to the integrator is
`sigmoid raw * (1 + 2p) - p` (that is `paddedColor`, the map `rgbArg`
applies at source lines 236-237 for the constructed sigmoid activation),
each of its components lies in `[-p, 1+p]`, and consequently a
weight-composited color with non-negative weights summing to at most 1
(before background compositing) lies in the same padded range. -/
theorem mip_padded_color_range (p : ℚ) (x : ℝ) (ws vs : List ℝ)
    (hp : 0 ≤ p) (hw : ∀ w ∈ ws, 0 ≤ w) (hsum : ws.sum ≤ 1)
    (hv : ∀ v ∈ vs, -(p : ℝ) ≤ v ∧ v ≤ 1 + (p : ℝ)) :
    (-(p : ℝ) ≤ paddedColor p x ∧ paddedColor p x ≤ 1 + (p : ℝ))
    ∧ (-(p : ℝ) ≤ weightedSum ws vs ∧ weightedSum ws vs ≤ 1 + (p : ℝ))
    ∧ (∀ (m : MipModel) (raw : List (List ℝ)),
        m.rgb_activation = sigmoid → m.rgb_padding = p →
        MipNerf.rgbArg m raw = raw.map (List.map (paddedColor p))) := by
  have hp' : (0 : ℝ) ≤ (p : ℝ) := by exact_mod_cast hp
  have hs := sigmoid_bounds x
  have hsum0 : 0 ≤ ws.sum := List.sum_nonneg hw
  refine ⟨⟨?_, ?_⟩, ⟨?_, ?_⟩, ?_⟩
  · rw [paddedColor]
    nlinarith [hs.1, hs.2]
  · rw [paddedColor]
    nlinarith [hs.1, hs.2]
  · have hlow := weightedSum_ge_mul (-(p : ℝ)) (by linarith) ws vs hw
      (fun v hv' => (hv v hv').1)
    have : -(p : ℝ) * 1 ≤ -(p : ℝ) * ws.sum :=
      mul_le_mul_of_nonpos_left hsum (by linarith)
    linarith
  · have hhigh := weightedSum_le_mul (1 + (p : ℝ)) (by linarith) ws vs hw
      (fun v hv' => (hv v hv').2)
    have : (1 + (p : ℝ)) * ws.sum ≤ (1 + (p : ℝ)) * 1 :=
      mul_le_mul_of_nonneg_left hsum (by linarith)
    linarith
  · intro m raw h1 h2
    simp [MipNerf.rgbArg, paddedColor, h1, h2]

/-- Witness for C5 at `p = 1/1000`, `x = 0`, a half weight and a zero
color. -/
theorem mip_padded_color_range_w :
    -(((1 : ℚ) / 1000 : ℚ) : ℝ) ≤ paddedColor ((1 : ℚ) / 1000) 0 ∧
      paddedColor ((1 : ℚ) / 1000) 0 ≤ 1 + (((1 : ℚ) / 1000 : ℚ) : ℝ) :=
  (mip_padded_color_range ((1 : ℚ) / 1000) 0 [(1 : ℝ) / 2] [0] (by norm_num)
    (by intro w hw; rw [List.mem_singleton] at hw; rw [hw]; norm_num)
    (by norm_num)
    (by intro v hv; rw [List.mem_singleton] at hv; rw [hv]; constructor <;> norm_num)).1

/-- C6: the density pipeline of source lines 231-238.  Noise is added to
the raw density exactly when the call is randomized and the configured
noise scale is positive — in particular never during non-randomized
evaluation, where the generator state is not even consumed — and when it
is added it is a `torch.randn` draw scaled by `density_noise`; the density
handed to the integrator is `softplus (raw + density_bias)` applied
elementwise (for the constructed softplus activation). -/
theorem mip_density_noise_gating {T S TS Cc Dd Aa Ww : Type}
    (C : MipComponents T S TS Cc Dd Aa Ww) (m : MipModel) (randomized : Bool)
    (raw : List ℝ) (s : S) :
    ((randomized = false ∨ m.density_noise ≤ 0) →
      MipNerf.noisedDensity C m randomized raw s = (raw, s))
    ∧ (randomized = true → 0 < m.density_noise →
      MipNerf.noisedDensity C m randomized raw s =
        (List.zipWith (fun x e => x + (m.density_noise : ℝ) * e) raw
          (C.randn s raw.length).1, (C.randn s raw.length).2))
    ∧ (m.density_activation = softplus →
      MipNerf.densityArg m raw =
        raw.map (fun x => softplus (x + (m.density_bias : ℝ)))) := by
  refine ⟨fun h => ?_, fun h1 h2 => ?_, fun h => ?_⟩
  · rw [MipNerf.noisedDensity, if_neg]
    rintro ⟨ha, hb⟩
    rcases h with h | h
    · rw [h] at ha
      exact absurd ha (by simp)
    · exact absurd hb (not_lt.mpr h)
  · rw [MipNerf.noisedDensity, if_pos ⟨h1, h2⟩]
  · simp [MipNerf.densityArg, h]

/-- Witness for C6: a non-randomized call leaves the raw density and the
generator state untouched even though the toy model's noise scale is 1. -/
theorem mip_density_noise_gating_w :
    MipNerf.noisedDensity toyComponents toyModel false [0] 0 = ([0], 0) :=
  (mip_density_noise_gating toyComponents toyModel false [0] 0).1 (Or.inl rfl)

theorem ipe_zero_var (l : List (ℝ × ℝ)) (a b : ℕ) :
    integrated_pos_enc (l.map (fun p => (p.1, 0))) a b =
      pos_enc (l.map Prod.fst) a b false := by
  simp only [integrated_pos_enc, pos_enc, List.map_map, Bool.false_eq_true,
    if_false]
  refine congrArg List.flatten (List.map_congr_left ?_)
  intro k _
  refine congrArg List.flatten (List.map_congr_left ?_)
  intro p _
  simp [Function.comp, mul_zero, neg_zero, Real.exp_zero, mul_one]

/-- C7: when `disable_integration` is set, the forward pass's sample
encoding replaces every covariance with zero before encoding (source
lines 211-217), and the integrated positional encoding of the zeroed
Gaussians is numerically identical to the plain positional encoding of the
same means, for all frequencies in `[min_deg_point, max_deg_point)` and
all inputs. -/
theorem mip_disable_integration_pe (m : MipModel) (mcs : List (List (ℝ × ℝ)))
    (h : m.disable_integration = true) :
    MipNerf.levelEncoding m mcs =
      mcs.map (fun sample =>
        pos_enc (sample.map Prod.fst) m.min_deg_point m.max_deg_point false) := by
  simp only [MipNerf.levelEncoding, h, if_true, List.map_map]
  exact List.map_congr_left (fun sample _ => ipe_zero_var sample _ _)

/-- Witness for C7 at the integration-disabled toy model and one sample
Gaussian with nonzero variance. -/
theorem mip_disable_integration_pe_w :
    MipNerf.levelEncoding disModel [[((0 : ℝ), (5 : ℝ))]] =
      [[((0 : ℝ), (5 : ℝ))]].map (fun sample =>
        pos_enc (sample.map Prod.fst) disModel.min_deg_point
          disModel.max_deg_point false) :=
  mip_disable_integration_pe disModel [[((0 : ℝ), (5 : ℝ))]] rfl

end MipNerfPL
